import Mathlib

/-!
Verification of the marketpulse ingestion / deduplication / consensus /
flow-control pipeline.  Shallow embedding of `src/intelligence.py`,
`src/backend.py` (MarketStream universe management, news deduplication,
LocalBrain seen-news store) and `src/controller.py` (delivery queue and
flow control).  Timestamps are modelled as rationals, Python dicts as
association lists, Python sets as lists without duplicates of interest,
and the sqlite `seen_news` table as a list of (id, timestamp) rows.
-/

namespace MarketPulse

/-! ## intelligence.py : NewsAggregator and FundamentalAnalyst -/

/-- Substring test on character lists: Python's `term in text`. -/
def isInfixChars (pat : List Char) : List Char → Bool
  | [] => pat.isEmpty
  | c :: rest => pat.isPrefixOf (c :: rest) || isInfixChars pat rest

/-- Python `term in text` for strings. -/
def containsTerm (text term : String) : Bool :=
  isInfixChars term.data text.data

/-- ASCII uppercase of one character (Python `str.upper` on the ASCII texts
this pipeline handles). -/
def pyUpperChar (c : Char) : Char :=
  if 'a' ≤ c ∧ c ≤ 'z' then Char.ofNat (c.toNat - 32) else c

/-- Python `s.upper()`. -/
def pyUpper (s : String) : String :=
  ⟨s.data.map pyUpperChar⟩

/-- Python `s.strip()`: drop leading and trailing whitespace. -/
def pyStrip (s : String) : String :=
  ⟨((s.data.dropWhile Char.isWhitespace).reverse.dropWhile Char.isWhitespace).reverse⟩

/-- Keyword list `critical_terms` from `NewsAggregator._analyze_impact`. -/
def criticalTerms : List String :=
  ["BANKRUPTCY", "HALT", "ACQUISITION", "MERGER", "GUIDANCE LOWERED", "FDA APPROVAL", "CRASH"]

/-- Keyword list `high_terms` from `NewsAggregator._analyze_impact`. -/
def highTerms : List String :=
  ["EARNINGS", "REVENUE", "GROWTH", "SURGE", "RECORD", "BEATS", "MISSES", "GUIDANCE"]

/-- Text assembled as `(headline + " " + (summary or "")).upper()`. -/
def impactText (headline : String) (summary : Option String) : String :=
  pyUpper (headline ++ " " ++ summary.getD "")

/-- Classifier `NewsAggregator._analyze_impact` (pure keyword classification). -/
def analyze_impact (headline : String) (summary : Option String) : String :=
  let text := impactText headline summary
  if criticalTerms.any (fun t => containsTerm text t) then "CRITICAL"
  else if highTerms.any (fun t => containsTerm text t) then "HIGH"
  else "NORMAL"

/-- One entry of a per-symbol pending buffer in `NewsAggregator._buffer`. -/
structure NewsEntry where
  source : String
  headline : String
  sentiment : String
  summary : Option String
  time : ℚ
deriving DecidableEq

/-- Dataclass `VerifiedNews` from intelligence.py. -/
structure VerifiedNews where
  symbol : String
  headline : String
  sources : List String
  sentiment : String
  timestamp : ℚ
  summary : Option String
  all_summaries : List String
  impact : String
deriving DecidableEq

/-- State of `NewsAggregator`: consensus threshold, per-symbol buffer dict, TTL. -/
structure NewsAggregator where
  threshold : Nat
  buffer : List (String × List NewsEntry)
  ttl : ℚ
deriving DecidableEq

/-- Constructor `NewsAggregator(consensus_threshold)`: empty buffer, ttl = 30. -/
def NewsAggregator.init (consensus_threshold : Nat) : NewsAggregator :=
  { threshold := consensus_threshold, buffer := [], ttl := 30 }

/-- Dict read `self._buffer[symbol]` after the `if symbol not in self._buffer`
initialisation: missing keys read as `[]`. -/
def lookupBuf (b : List (String × List NewsEntry)) (symbol : String) : List NewsEntry :=
  match b.find? (fun p => p.1 == symbol) with
  | some p => p.2
  | none => []

/-- Dict write `self._buffer[symbol] = es`. -/
def setBuf (b : List (String × List NewsEntry)) (symbol : String) (es : List NewsEntry) :
    List (String × List NewsEntry) :=
  if b.any (fun p => p.1 == symbol) then
    b.map (fun p => if p.1 == symbol then (p.1, es) else p)
  else
    b ++ [(symbol, es)]

/-- Purge `[n for n in buffer if now - n.time < self.ttl]`. -/
def purgeEntries (ttl now : ℚ) (es : List NewsEntry) : List NewsEntry :=
  es.filter (fun n => now - n.time < ttl)

/-- Python `max(all_summaries, key=len)`: first element of maximal length. -/
def maxByLen : List String → Option String
  | [] => none
  | x :: xs => some (xs.foldl (fun acc s => if s.length > acc.length then s else acc) x)

/-- Comprehension `[n.summary for n in buffer if n.summary]` (truthy: some non-empty). -/
def collectSummaries (es : List NewsEntry) : List String :=
  es.filterMap (fun n =>
    match n.summary with
    | some s => if s = "" then none else some s
    | none => none)

/-- Method `NewsAggregator.process(source, symbol, headline, sentiment, summary)` at
wall-clock time `now`.  Returns (emitted VerifiedNews?, new aggregator state). -/
def NewsAggregator.process (agg : NewsAggregator) (source symbol headline sentiment : String)
    (summary : Option String) (now : ℚ) : Option VerifiedNews × NewsAggregator :=
  let es := purgeEntries agg.ttl now (lookupBuf agg.buffer symbol)
  if es.any (fun n => n.source == source) then
    (none, { agg with buffer := setBuf agg.buffer symbol es })
  else
    let es' := es ++ [{ source := source, headline := headline, sentiment := sentiment,
                        summary := summary, time := now }]
    if es'.length ≥ agg.threshold then
      let sources := es'.map (fun n => n.source)
      let all_summaries := collectSummaries es'
      let best_summary := maxByLen all_summaries
      let impact := analyze_impact headline best_summary
      (some { symbol := symbol, headline := headline, sources := sources,
              sentiment := sentiment, timestamp := now, summary := best_summary,
              all_summaries := all_summaries, impact := impact },
       { agg with buffer := setBuf agg.buffer symbol [] })
    else
      (none, { agg with buffer := setBuf agg.buffer symbol es' })

/-- Methods defined on class `NewsAggregator` in intelligence.py. -/
def newsAggregatorMethodNames : List String :=
  ["__init__", "_analyze_impact", "process"]

/-- Attribute resolution of `self.news_aggregator.flush` in `_on_timer_tick`:
Python attribute lookup succeeds only for a defined method. -/
def onTimerTickFlushCall : Except String Unit :=
  if "flush" ∈ newsAggregatorMethodNames then Except.ok ()
  else Except.error "AttributeError: NewsAggregator object has no attribute flush"

/-- Dataclass `FundamentalData`. -/
structure FundamentalData where
  revenue_growth : ℚ
  net_margin : ℚ
  debt_to_equity : ℚ
  guidance : String
deriving DecidableEq

/-- Result dict of `FundamentalAnalyst.analyze`. -/
structure FAResult where
  score : ℤ
  summary : String
deriving DecidableEq

/-- Method `FundamentalAnalyst.analyze`: sequential score adjustments from 50,
clamped into [0, 100]. -/
def FundamentalAnalyst.analyze (data : FundamentalData) : FAResult :=
  let score0 : ℤ := 50
  let reasons0 : List String := []
  let score1 := if data.revenue_growth > 1/10 then score0 + 20
    else if data.revenue_growth < 0 then score0 - 20 else score0
  let reasons1 := if data.revenue_growth > 1/10 then reasons0 ++ ["High Growth"]
    else if data.revenue_growth < 0 then reasons0 ++ ["Revenue Shrinking"] else reasons0
  let score2 := if data.net_margin > 15/100 then score1 + 15 else score1
  let reasons2 := if data.net_margin > 15/100 then reasons1 ++ ["High Margins"] else reasons1
  let score3 := if data.debt_to_equity > 2 then score2 - 15 else score2
  let reasons3 := if data.debt_to_equity > 2 then reasons2 ++ ["High Debt"] else reasons2
  let score4 := if data.guidance = "RAISED" then score3 + 25
    else if data.guidance = "LOWERED" then score3 - 30 else score3
  let reasons4 := if data.guidance = "RAISED" then reasons3 ++ ["Guidance Raised"]
    else if data.guidance = "LOWERED" then reasons3 ++ ["Guidance Lowered !!"] else reasons3
  { score := max 0 (min 100 score4), summary := String.intercalate ", " reasons4 }

/-- The clamp-of-sum-of-independent-adjustments form the spec describes. -/
def scoreSpec (data : FundamentalData) : ℤ :=
  max 0 (min 100 (50
    + (if data.revenue_growth > 1/10 then 20 else 0)
    + (if data.revenue_growth < 0 then -20 else 0)
    + (if data.net_margin > 15/100 then 15 else 0)
    + (if data.debt_to_equity > 2 then -15 else 0)
    + (if data.guidance = "RAISED" then 25 else 0)
    + (if data.guidance = "LOWERED" then -30 else 0)))

/-! ## backend.py : MarketStream universe management -/

/-- Setting write `INSERT OR REPLACE INTO settings`; JSON serialisation of a
symbol list is abstracted as the list itself. -/
def setSetting (settings : List (String × List String)) (key : String) (value : List String) :
    List (String × List String) :=
  if settings.any (fun p => p.1 == key) then
    settings.map (fun p => if p.1 == key then (key, value) else p)
  else
    settings ++ [(key, value)]

/-- Ticker write `INSERT OR IGNORE INTO tickers` for each element. -/
def addTickers (table : List String) (tickers : List String) : List String :=
  tickers.foldl (fun acc t => if t ∈ acc then acc else acc ++ [t]) table

/-- State of `MarketStream`: the three universes plus the persisted settings
and tickers table of its LocalBrain. -/
structure MarketStream where
  monitoring_universe : List String
  priority_universe : List String
  full_universe : List String
  settings : List (String × List String)
  tickersTable : List String
deriving DecidableEq

/-- Constructor `MarketStream.__init__`: default monitoring list, empty
priority and full universes. -/
def MarketStream.init : MarketStream :=
  { monitoring_universe := ["NVDA", "TSLA", "AAPL", "BTC-USD", "ETH-USD"],
    priority_universe := [], full_universe := [], settings := [], tickersTable := [] }

/-- Method `MarketStream.mark_priority(symbol)` (db present). -/
def MarketStream.mark_priority (s : MarketStream) (symbol : String) : Bool × MarketStream :=
  let sym := pyStrip (pyUpper symbol)
  if sym ∉ s.monitoring_universe then (false, s)
  else if sym ∈ s.priority_universe then (true, s)
  else if s.priority_universe.length ≥ 5 then (false, s)
  else
    let pr := s.priority_universe ++ [sym]
    (true, { s with priority_universe := pr,
                    settings := setSetting s.settings "priority_universe" pr })

/-- Method `MarketStream.unmark_priority(symbol)` (db present). -/
def MarketStream.unmark_priority (s : MarketStream) (symbol : String) : MarketStream :=
  let sym := pyStrip (pyUpper symbol)
  if sym ∈ s.priority_universe then
    let pr := s.priority_universe.erase sym
    { s with priority_universe := pr,
             settings := setSetting s.settings "priority_universe" pr }
  else s

/-- Method `MarketStream.remove_symbol(symbol)` (db present). -/
def MarketStream.remove_symbol (s : MarketStream) (symbol : String) : MarketStream :=
  let sym := pyStrip (pyUpper symbol)
  if sym ∈ s.monitoring_universe then
    let mon := s.monitoring_universe.erase sym
    { s with monitoring_universe := mon,
             settings := setSetting s.settings "monitoring_universe" mon }
  else s

/-- Method `MarketStream.track_symbol(symbol)` (db present); the outcome of the
external provider probe `validate_ticker` is passed in as a function. -/
def MarketStream.track_symbol (validate : String → Bool) (s : MarketStream) (symbol : String) :
    Bool × MarketStream :=
  let sym := pyStrip (pyUpper symbol)
  if sym = "" then (false, s)
  else if sym ∉ s.full_universe ∧ validate sym = false then (false, s)
  else
    let s1 := if sym ∈ s.full_universe then s
      else { s with full_universe := s.full_universe ++ [sym],
                    tickersTable := addTickers s.tickersTable [sym] }
    if sym ∈ s1.monitoring_universe then (true, s1)
    else (true, { s1 with monitoring_universe := s1.monitoring_universe ++ [sym],
                          settings := setSetting s1.settings "monitoring_universe"
                            (s1.monitoring_universe ++ [sym]) })

/-- One call to a universe-mutating `MarketStream` method; validation outcomes
for `track_symbol` are part of the operation. -/
inductive MSOp where
  | track (symbol : String) (valid : Bool)
  | markPr (symbol : String)
  | unmarkPr (symbol : String)
  | removeSym (symbol : String)
deriving DecidableEq

/-- State transition of one `MSOp`. -/
def MSOp.apply (s : MarketStream) : MSOp → MarketStream
  | .track sym v => (MarketStream.track_symbol (fun _ => v) s sym).2
  | .markPr sym => (MarketStream.mark_priority s sym).2
  | .unmarkPr sym => MarketStream.unmark_priority s sym
  | .removeSym sym => MarketStream.remove_symbol s sym

/-- Run a sequence of universe operations. -/
def runMS (s : MarketStream) (ops : List MSOp) : MarketStream :=
  ops.foldl MSOp.apply s

/-! ## backend.py : two-tier news deduplication -/

/-- State of the deduplication layer: the in-memory session set
`MarketStream._news_dedup` and the persisted `seen_news` table rows. -/
structure DedupState where
  mem : List String
  store : List (String × ℚ)
deriving DecidableEq

/-- Query `LocalBrain.is_news_seen`. -/
def isNewsSeen (store : List (String × ℚ)) (k : String) : Bool :=
  store.any (fun e => e.1 == k)

/-- Method `LocalBrain.mark_news_seen`: `INSERT OR IGNORE` of (id, now), then,
with probability 0.1 (modelled by the `doPrune` flag), deletion of rows with
`timestamp < now - 86400`. -/
def markNewsSeen (store : List (String × ℚ)) (k : String) (now : ℚ) (doPrune : Bool) :
    List (String × ℚ) :=
  let s1 := if isNewsSeen store k then store else store ++ [(k, now)]
  if doPrune then s1.filter (fun e => decide (now - 86400 ≤ e.2)) else s1

/-- Per-item dedup decision of `MarketStream._poll_symbol` (backend.py
lines 290-295, db present): memory check, then persistent check (no
back-fill), then record in both tiers on admission. -/
def yahooStep (s : DedupState) (k : String) (now : ℚ) (doPrune : Bool) : Bool × DedupState :=
  if s.mem.contains k then (false, s)
  else if isNewsSeen s.store k then (false, s)
  else (true, { mem := k :: s.mem, store := markNewsSeen s.store k now doPrune })

/-- Per-item dedup decision of `MarketStream._poll_alpha_vantage` (backend.py
lines 366-386, db present): memory check, persistent check with back-fill,
record in both tiers on admission, then arbitrary eviction (`set.pop()`,
modelled by an index) once the memory set exceeds 2000 entries. -/
def avStep (s : DedupState) (k : String) (now : ℚ) (doPrune : Bool) (evictIdx : Nat) :
    Bool × DedupState :=
  if s.mem.contains k then (false, s)
  else if isNewsSeen s.store k then (false, { s with mem := k :: s.mem })
  else
    let mem1 := k :: s.mem
    let store1 := markNewsSeen s.store k now doPrune
    let mem2 := if mem1.length > 2000 then mem1.eraseIdx evictIdx else mem1
    (true, { mem := mem2, store := store1 })

/-- One deduplication-relevant system step: a Yahoo-path item, a global-feed
item, or a process restart (which re-instantiates `MarketStream`, emptying the
session set while the persisted store survives). -/
inductive DedupOp where
  | yahoo (k : String) (now : ℚ) (doPrune : Bool)
  | av (k : String) (now : ℚ) (doPrune : Bool) (evictIdx : Nat)
  | restart
deriving DecidableEq

/-- Wall-clock bound for an operation (restarts carry no clock reading). -/
def DedupOp.timeLE (bound : ℚ) : DedupOp → Prop
  | .yahoo _ now _ => now ≤ bound
  | .av _ now _ _ => now ≤ bound
  | .restart => True

instance (bound : ℚ) (op : DedupOp) : Decidable (DedupOp.timeLE bound op) := by
  cases op <;> simp only [DedupOp.timeLE] <;> infer_instance

/-- State transition of one `DedupOp`. -/
def dedupStep (s : DedupState) : DedupOp → DedupState
  | .yahoo k now p => (yahooStep s k now p).2
  | .av k now p i => (avStep s k now p i).2
  | .restart => { mem := [], store := s.store }

/-- Run a sequence of deduplication operations. -/
def runDedup (s : DedupState) (ops : List DedupOp) : DedupState :=
  ops.foldl dedupStep s

/-! ## controller.py : delivery queue and flow control -/

/-- Queue element `{'symbol': ..., 'payload': ...}`; the renderable payload is
abstracted by a type parameter. -/
structure AlertItem (α : Type) where
  symbol : String
  payload : α
deriving DecidableEq

/-- Predicate `Controller._matches_filter`. -/
def matchesFilter (current_filter symbol : String) : Bool :=
  current_filter == "" || current_filter == "ALL" || symbol == current_filter

/-- State of `Controller`: delivery queue, aggregator, mode, filter, and
whether the 15-second delivery timer is running. -/
structure Controller (α : Type) where
  alert_queue : List (AlertItem α)
  news_aggregator : NewsAggregator
  mode : String
  current_filter : String
  timerActive : Bool
deriving DecidableEq

/-- Method `Controller._try_show_next`: scan the queue in arrival order for
the first filter match, remove exactly it (`deque.remove` drops the first
equal element), deliver it, and restart the timer in AUTO mode. -/
def tryShowNext {α : Type} [DecidableEq α] (c : Controller α) :
    Option (AlertItem α) × Controller α :=
  match c.alert_queue.find? (fun it => matchesFilter c.current_filter it.symbol) with
  | none => (none, c)
  | some it =>
      (some it,
       { c with alert_queue := c.alert_queue.erase it,
                timerActive := if c.mode == "AUTO" then true else c.timerActive })

/-- Method `Controller._analyze_and_queue` (queue effect): enrichment of the
verified story (history, agent, cache) is external and passed as `enrich`;
the item is appended, and the cold-start urgent trigger fires one delivery
when the queue just became the single item in AUTO mode with no pending
timer. -/
def analyze_and_queue {α : Type} [DecidableEq α] (enrich : VerifiedNews → Option String → α)
    (c : Controller α) (v : VerifiedNews) (url : Option String) : Controller α :=
  let item : AlertItem α := { symbol := v.symbol, payload := enrich v url }
  let c1 := { c with alert_queue := c.alert_queue ++ [item] }
  if c1.alert_queue.length == 1 && c1.mode == "AUTO" && !c1.timerActive then
    let r := tryShowNext c1
    { r.2 with timerActive := true }
  else c1

/-- Raw `MarketEvent`s as consumed by `Controller.process_market_event`. -/
inductive MEvent where
  | priceUpdate (symbol : String)
  | universeUpdate (data : List String)
  | rawNews (symbol source headline sentiment : String) (summary url : Option String)
  | fundamentals (symbol : String) (data : FundamentalData)
deriving DecidableEq

/-- Method `Controller.process_market_event` at wall-clock time `now`:
capacity check first (load shedding at 5), then dispatch by event type;
fundamentals payload enrichment (tech analyst, history) is external and
passed as `enrichFund`. -/
def process_market_event {α : Type} [DecidableEq α] (enrich : VerifiedNews → Option String → α)
    (enrichFund : String → FundamentalData → α) (c : Controller α) (ev : MEvent) (now : ℚ) :
    Controller α :=
  if c.alert_queue.length ≥ 5 then c
  else
    match ev with
    | .priceUpdate _ => c
    | .universeUpdate _ => c
    | .rawNews symbol source headline sentiment summary url =>
        let r := NewsAggregator.process c.news_aggregator source symbol headline sentiment
          summary now
        let c1 := { c with news_aggregator := r.2 }
        match r.1 with
        | none => c1
        | some v => analyze_and_queue enrich c1 v url
    | .fundamentals symbol d =>
        { c with alert_queue := c.alert_queue ++ [{ symbol := symbol,
                                                    payload := enrichFund symbol d }] }

/-! ## Theorems -/

/-- C1: the spec requires a `flush(timeout)` sweep on the Consensus Aggregator,
and `Controller._on_timer_tick` calls `self.news_aggregator.flush(timeout=10)`
on every tick, but class `NewsAggregator` defines no `flush` method at all, so
the attribute lookup fails (AttributeError) instead of promoting stale
PendingStories. -/
theorem C1_flush_method_missing :
    onTimerTickFlushCall =
      Except.error "AttributeError: NewsAggregator object has no attribute flush" := rfl

/-- C8: impact classification is a pure function of headline plus summary text
with strict precedence CRITICAL > HIGH > NORMAL: a critical-class keyword
forces CRITICAL even in the presence of high-class keywords, otherwise a
high-class keyword gives HIGH, otherwise NORMAL. -/
theorem C8_impact_tier_precedence (headline : String) (summary : Option String) :
    (criticalTerms.any (fun t => containsTerm (impactText headline summary) t) = true →
      analyze_impact headline summary = "CRITICAL") ∧
    (criticalTerms.any (fun t => containsTerm (impactText headline summary) t) = false →
      highTerms.any (fun t => containsTerm (impactText headline summary) t) = true →
      analyze_impact headline summary = "HIGH") ∧
    (criticalTerms.any (fun t => containsTerm (impactText headline summary) t) = false →
      highTerms.any (fun t => containsTerm (impactText headline summary) t) = false →
      analyze_impact headline summary = "NORMAL") := by
  refine ⟨fun hc => ?_, fun hc hh => ?_, fun hc hh => ?_⟩
  · simp [analyze_impact, hc]
  · simp [analyze_impact, hc, hh]
  · simp [analyze_impact, hc, hh]

/-- Witness for C8 on a text holding both a critical-class term (MERGER) and
high-class terms (BEATS, EARNINGS): CRITICAL wins. -/
theorem C8_impact_tier_precedence_witness :
    criticalTerms.any
      (fun t => containsTerm (impactText "Megacorp merger beats earnings" none) t) = true ∧
    highTerms.any
      (fun t => containsTerm (impactText "Megacorp merger beats earnings" none) t) = true ∧
    analyze_impact "Megacorp merger beats earnings" none = "CRITICAL" :=
  ⟨by decide, by decide,
   (C8_impact_tier_precedence "Megacorp merger beats earnings" none).1 (by decide)⟩

/-- C10: the fundamental score always lies in [0, 100] and equals the clamp of
50 plus the six independent adjustments the claim lists. -/
theorem C10_fundamental_score_clamped (data : FundamentalData) :
    0 ≤ (FundamentalAnalyst.analyze data).score ∧
    (FundamentalAnalyst.analyze data).score ≤ 100 ∧
    (FundamentalAnalyst.analyze data).score = scoreSpec data := by
  simp only [FundamentalAnalyst.analyze, scoreSpec]
  split_ifs <;>
    first
      | decide
      | (exfalso; linarith)
      | simp_all

/-- C9: for a symbol that is not already in `full_universe` and fails the
provider probe, `track_symbol` returns the boolean false and mutates nothing:
universes, persisted settings and tickers table are all exactly as before. -/
theorem C9_track_symbol_failure_no_mutation (s : MarketStream) (symbol : String)
    (validate : String → Bool)
    (hfull : pyStrip (pyUpper symbol) ∉ s.full_universe)
    (hval : validate (pyStrip (pyUpper symbol)) = false) :
    MarketStream.track_symbol validate s symbol = (false, s) := by
  unfold MarketStream.track_symbol
  by_cases he : pyStrip (pyUpper symbol) = ""
  · simp [he]
  · simp [he, hfull, hval]

/-- Witness for C9: tracking an unknown, invalid symbol fails and leaves the
initial state untouched. -/
theorem C9_track_symbol_failure_no_mutation_witness :
    pyStrip (pyUpper "zzzz") ∉ MarketStream.init.full_universe ∧
    MarketStream.track_symbol (fun _ => false) MarketStream.init "zzzz" =
      (false, MarketStream.init) :=
  ⟨by decide,
   C9_track_symbol_failure_no_mutation MarketStream.init "zzzz" (fun _ => false)
     (by decide) rfl⟩

/-- Helper: `track_symbol` never touches the priority universe. -/
lemma track_symbol_priority_unchanged (validate : String → Bool) (s : MarketStream)
    (symbol : String) :
    ((MarketStream.track_symbol validate s symbol).2).priority_universe =
      s.priority_universe := by
  simp only [MarketStream.track_symbol]
  repeat' split
  all_goals rfl

/-- Helper: `remove_symbol` never touches the priority universe. -/
lemma remove_symbol_priority_unchanged (s : MarketStream) (symbol : String) :
    (MarketStream.remove_symbol s symbol).priority_universe = s.priority_universe := by
  simp only [MarketStream.remove_symbol]
  split <;> rfl

/-- Helper: one `mark_priority` call preserves the capacity bound. -/
lemma mark_priority_le_five (s : MarketStream) (symbol : String)
    (h : s.priority_universe.length ≤ 5) :
    ((MarketStream.mark_priority s symbol).2).priority_universe.length ≤ 5 := by
  simp only [MarketStream.mark_priority]
  split
  · exact h
  split
  · exact h
  split
  · exact h
  · rename_i hcap
    simp only [List.length_append, List.length_cons, List.length_nil]
    omega

/-- Helper: `unmark_priority` preserves the capacity bound. -/
lemma unmark_priority_le_five (s : MarketStream) (symbol : String)
    (h : s.priority_universe.length ≤ 5) :
    (MarketStream.unmark_priority s symbol).priority_universe.length ≤ 5 := by
  simp only [MarketStream.unmark_priority]
  split
  · exact le_trans (List.Sublist.length_le (List.erase_sublist _ _)) h
  · exact h

/-- Helper: every universe operation preserves the priority capacity bound. -/
lemma msop_priority_le_five (s : MarketStream) (op : MSOp)
    (h : s.priority_universe.length ≤ 5) :
    (MSOp.apply s op).priority_universe.length ≤ 5 := by
  cases op with
  | track sym v => rw [MSOp.apply, track_symbol_priority_unchanged]; exact h
  | markPr sym => exact mark_priority_le_five s sym h
  | unmarkPr sym => exact unmark_priority_le_five s sym h
  | removeSym sym => rw [MSOp.apply, remove_symbol_priority_unchanged]; exact h

/-- Helper: running any operation sequence preserves the capacity bound. -/
lemma runMS_priority_le_five (ops : List MSOp) :
    ∀ (s : MarketStream), s.priority_universe.length ≤ 5 →
      (runMS s ops).priority_universe.length ≤ 5 := by
  induction ops with
  | nil => intro s h; exact h
  | cons op ops ih =>
      intro s h
      exact ih (MSOp.apply s op) (msop_priority_le_five s op h)

/-- Concrete `MarketStream` state whose priority universe is at capacity and
already contains symbol A. -/
def fivePriority : MarketStream :=
  { monitoring_universe := ["A", "B", "C", "D", "E"],
    priority_universe := ["A", "B", "C", "D", "E"],
    full_universe := [], settings := [], tickersTable := [] }

/-- Counterexample to C6 as stated: with `priority_universe` already holding
its 5-entry capacity, `mark_priority` on a symbol that is already priority
returns True (idempotent success), not False. -/
theorem C6_counterexample_full_but_member_returns_true :
    fivePriority.priority_universe.length = 5 ∧
    "A" ∈ fivePriority.monitoring_universe ∧
    (MarketStream.mark_priority fivePriority "A").1 = true ∧
    (MarketStream.mark_priority fivePriority "A").2 = fivePriority := by decide

/-- C6 (amended): `mark_priority` returns False and changes nothing when the
symbol is not monitored, or when the symbol is not already priority and the
priority universe holds 5 entries (an already-priority symbol at capacity
returns True and still changes nothing); and after any operation sequence
from the initial state the priority universe never exceeds 5 symbols. -/
theorem C6_priority_capacity (s : MarketStream) (symbol : String) :
    (pyStrip (pyUpper symbol) ∉ s.monitoring_universe →
      MarketStream.mark_priority s symbol = (false, s)) ∧
    (pyStrip (pyUpper symbol) ∉ s.priority_universe →
      5 ≤ s.priority_universe.length →
      MarketStream.mark_priority s symbol = (false, s)) ∧
    (∀ (ops : List MSOp), (runMS MarketStream.init ops).priority_universe.length ≤ 5) := by
  refine ⟨fun hmon => ?_, fun hpr hcap => ?_, fun ops => ?_⟩
  · unfold MarketStream.mark_priority
    simp [hmon]
  · unfold MarketStream.mark_priority
    by_cases hmon : pyStrip (pyUpper symbol) ∈ s.monitoring_universe
    · simp [hmon, hpr, hcap]
    · simp [hmon]
  · exact runMS_priority_le_five ops MarketStream.init (by decide)

/-- Witness for C6: marking an unmonitored symbol fails on the initial state,
and capacity never exceeds 5 along a concrete operation run. -/
theorem C6_priority_capacity_witness :
    pyStrip (pyUpper "ZZZZ") ∉ MarketStream.init.monitoring_universe ∧
    MarketStream.mark_priority MarketStream.init "ZZZZ" = (false, MarketStream.init) ∧
    (runMS MarketStream.init [MSOp.markPr "NVDA", MSOp.markPr "TSLA"]).priority_universe.length
      ≤ 5 :=
  ⟨by decide,
   (C6_priority_capacity MarketStream.init "ZZZZ").1 (by decide),
   (C6_priority_capacity MarketStream.init "ZZZZ").2.2
     [MSOp.markPr "NVDA", MSOp.markPr "TSLA"]⟩

/-- Helper: delivery never lengthens the queue. -/
lemma tryShowNext_queue_length_le {α : Type} [DecidableEq α] (c : Controller α) :
    (tryShowNext c).2.alert_queue.length ≤ c.alert_queue.length := by
  simp only [tryShowNext]
  split
  · exact le_refl _
  · exact List.Sublist.length_le (List.erase_sublist _ _)

/-- Helper: `_analyze_and_queue` grows the queue by at most one item. -/
lemma analyze_and_queue_length_le {α : Type} [DecidableEq α]
    (enrich : VerifiedNews → Option String → α) (c : Controller α) (v : VerifiedNews)
    (url : Option String) :
    (analyze_and_queue enrich c v url).alert_queue.length ≤ c.alert_queue.length + 1 := by
  simp only [analyze_and_queue]
  split
  · refine le_trans (tryShowNext_queue_length_le _) ?_
    simp
  · simp

/-- C4: `process_market_event` sheds load at the queue bound: with 5 or more
queued items the incoming event is dropped before reaching the aggregator and
the whole controller state is unchanged, and a queue within the bound never
grows past 5 items. -/
theorem C4_queue_load_shedding {α : Type} [DecidableEq α]
    (enrich : VerifiedNews → Option String → α) (enrichFund : String → FundamentalData → α)
    (c : Controller α) (ev : MEvent) (now : ℚ) :
    (5 ≤ c.alert_queue.length → process_market_event enrich enrichFund c ev now = c) ∧
    (c.alert_queue.length ≤ 5 →
      (process_market_event enrich enrichFund c ev now).alert_queue.length ≤ 5) := by
  constructor
  · intro h
    simp only [process_market_event]
    rw [if_pos h]
  · intro h
    simp only [process_market_event]
    split
    · exact h
    · rename_i hlt
      cases ev with
      | priceUpdate s => exact h
      | universeUpdate d => exact h
      | rawNews sym src hd sent sum url =>
          dsimp only
          split
          · exact h
          · refine le_trans (analyze_and_queue_length_le _ _ _ _) ?_
            simpa using by omega
      | fundamentals sym d =>
          simp only [List.length_append, List.length_cons, List.length_nil]
          omega

/-- Concrete controller with a full queue of 5 alerts. -/
def cFull : Controller Nat :=
  { alert_queue := [⟨"A", 0⟩, ⟨"B", 1⟩, ⟨"C", 2⟩, ⟨"D", 3⟩, ⟨"E", 4⟩],
    news_aggregator := NewsAggregator.init 1, mode := "AUTO", current_filter := "ALL",
    timerActive := true }

/-- Witness for C4: a 6th incoming story hits a queue of depth 5 and the
controller state, the queue included, is exactly unchanged. -/
theorem C4_queue_load_shedding_witness :
    5 ≤ cFull.alert_queue.length ∧
    process_market_event (fun _ _ => (0 : Nat)) (fun _ _ => 0) cFull
      (MEvent.rawNews "NVDA" "Yahoo" "headline" "NEUTRAL" none none) 0 = cFull :=
  ⟨by decide,
   (C4_queue_load_shedding (fun _ _ => (0 : Nat)) (fun _ _ => 0) cFull
     (MEvent.rawNews "NVDA" "Yahoo" "headline" "NEUTRAL" none none) 0).1 (by decide)⟩

/-- Helper: with a specific (non-ALL, non-empty) filter, the filter predicate
is exact symbol equality. -/
lemma matchesFilter_specific (filt sym : String) (h1 : filt ≠ "") (h2 : filt ≠ "ALL") :
    matchesFilter filt sym = (sym == filt) := by
  simp only [matchesFilter, beq_eq_false_iff_ne.mpr h1, beq_eq_false_iff_ne.mpr h2,
    Bool.false_or]

/-- Helper: erasing the first filter match splits the queue around the first
matching position, keeping every other item in order. -/
lemma erase_first_match {α : Type} [DecidableEq α] (filt : String)
    (h1 : filt ≠ "") (h2 : filt ≠ "ALL") :
    ∀ (l : List (AlertItem α)) (it : AlertItem α),
      l.find? (fun x => matchesFilter filt x.symbol) = some it →
      l.erase it = l.takeWhile (fun x => x.symbol ≠ filt) ++
        (l.dropWhile (fun x => x.symbol ≠ filt)).tail := by
  intro l
  induction l with
  | nil => intro it h; simp at h
  | cons a l ih =>
      intro it h
      by_cases ha : matchesFilter filt a.symbol = true
      · simp only [List.find?_cons, ha, Option.some.injEq] at h
        subst h
        have hsym : a.symbol = filt := by
          rw [matchesFilter_specific _ _ h1 h2] at ha
          exact eq_of_beq ha
        rw [List.erase_cons_head]
        rw [List.takeWhile_cons, List.dropWhile_cons]
        simp [hsym]
      · have hafalse : matchesFilter filt a.symbol = false := by
          simpa using ha
        simp only [List.find?_cons, hafalse] at h
        have hit : matchesFilter filt it.symbol = true := by
          simpa using List.find?_some h
        have hsym : a.symbol ≠ filt := by
          intro hcontra
          apply ha
          rw [matchesFilter_specific _ _ h1 h2, hcontra]
          exact beq_self_eq_true filt
        have hne : a ≠ it := by
          intro hcontra
          rw [hcontra] at ha
          exact ha hit
        rw [List.erase_cons_tail (by simpa using fun hcontra => hne hcontra)]
        rw [List.takeWhile_cons, List.dropWhile_cons]
        simp [hsym, ih it h]

/-- C5: with an active specific symbol filter, an attempted delivery removes
and delivers exactly the first queue item (in arrival order) whose symbol
matches, leaving all other items, earlier non-matching ones included, in
their original relative order; with no matching item the queue is
unchanged. -/
theorem C5_filtered_delivery {α : Type} [DecidableEq α] (c : Controller α)
    (h1 : c.current_filter ≠ "") (h2 : c.current_filter ≠ "ALL") :
    ((∀ x ∈ c.alert_queue, x.symbol ≠ c.current_filter) → tryShowNext c = (none, c)) ∧
    (∀ it, c.alert_queue.find? (fun x => matchesFilter c.current_filter x.symbol) = some it →
      (tryShowNext c).1 = some it ∧
      it.symbol = c.current_filter ∧
      (tryShowNext c).2.alert_queue =
        c.alert_queue.takeWhile (fun x => x.symbol ≠ c.current_filter) ++
          (c.alert_queue.dropWhile (fun x => x.symbol ≠ c.current_filter)).tail) := by
  constructor
  · intro hnone
    have hfind : c.alert_queue.find?
        (fun x => matchesFilter c.current_filter x.symbol) = none := by
      refine List.find?_eq_none.mpr fun x hx => ?_
      rw [matchesFilter_specific _ _ h1 h2]
      simpa using hnone x hx
    simp only [tryShowNext, hfind]
  · intro it hfind
    have hit : matchesFilter c.current_filter it.symbol = true := by
      simpa using List.find?_some hfind
    refine ⟨?_, ?_, ?_⟩
    · simp only [tryShowNext, hfind]
    · rw [matchesFilter_specific _ _ h1 h2] at hit
      exact eq_of_beq hit
    · simp only [tryShowNext, hfind]
      exact erase_first_match c.current_filter h1 h2 c.alert_queue it hfind

/-- Concrete controller with queue [A, B, A] (by symbol) and active filter A. -/
def cABA : Controller Nat :=
  { alert_queue := [⟨"A", 1⟩, ⟨"B", 2⟩, ⟨"A", 3⟩],
    news_aggregator := NewsAggregator.init 1, mode := "MANUAL", current_filter := "A",
    timerActive := false }

/-- Witness for C5: on queue [A, B, A] with filter A the first A is delivered
and removed, leaving [B, A] with B untouched. -/
theorem C5_filtered_delivery_witness :
    (tryShowNext cABA).1 = some ⟨"A", 1⟩ ∧
    (tryShowNext cABA).2.alert_queue = [⟨"B", 2⟩, ⟨"A", 3⟩] := by
  have h := (C5_filtered_delivery cABA (by decide) (by decide)).2 ⟨"A", 1⟩ (by decide)
  refine ⟨h.1, ?_⟩
  rw [h.2.2]
  decide

/-- Helper: replacing a present key in the buffer dict makes its value the
one looked up. -/
lemma lookup_map_self (symbol : String) (es : List NewsEntry) :
    ∀ (b : List (String × List NewsEntry)), b.any (fun p => p.1 == symbol) = true →
      lookupBuf (b.map (fun p => if p.1 == symbol then (p.1, es) else p)) symbol = es := by
  intro b
  induction b with
  | nil => intro h; simp at h
  | cons p b ih =>
      intro h
      rw [List.map_cons]
      by_cases hp : (p.1 == symbol) = true
      · simp [lookupBuf, List.find?_cons, hp]
      · have hp' : (p.1 == symbol) = false := by simpa using hp
        have h' : b.any (fun q => q.1 == symbol) = true := by
          simpa [hp'] using h
        have := ih h'
        simpa [lookupBuf, List.find?_cons, hp'] using this

/-- Helper: appending a fresh key to the buffer dict makes its value the one
looked up. -/
lemma lookup_append_self (symbol : String) (es : List NewsEntry) :
    ∀ (b : List (String × List NewsEntry)), b.any (fun p => p.1 == symbol) = false →
      lookupBuf (b ++ [(symbol, es)]) symbol = es := by
  intro b
  induction b with
  | nil => intro _; simp [lookupBuf, List.find?_cons]
  | cons p b ih =>
      intro h
      have hp' : (p.1 == symbol) = false := by
        by_contra hcontra
        simp [Bool.not_eq_false] at hcontra
        simp [hcontra] at h
      have h' : b.any (fun q => q.1 == symbol) = false := by
        simpa [hp'] using h
      rw [List.cons_append]
      simpa [lookupBuf, List.find?_cons, hp'] using ih h'

/-- Helper: a dict write is the value later read at the same key. -/
lemma lookupBuf_setBuf_self (b : List (String × List NewsEntry)) (symbol : String)
    (es : List NewsEntry) : lookupBuf (setBuf b symbol es) symbol = es := by
  rw [setBuf]
  split
  · rename_i hany
    exact lookup_map_self symbol es b hany
  · rename_i hany
    have hany' : b.any (fun p => p.1 == symbol) = false := by
      cases hb : b.any (fun p => p.1 == symbol)
      · rfl
      · exact absurd hb hany
    exact lookup_append_self symbol es b hany'

/-- Helper: a dict write at one key does not change the value read at another
key (replacement case). -/
lemma lookup_map_ne (symbol : String) (es : List NewsEntry) (s' : String)
    (hne : s' ≠ symbol) :
    ∀ (b : List (String × List NewsEntry)),
      lookupBuf (b.map (fun p => if p.1 == symbol then (p.1, es) else p)) s' =
        lookupBuf b s' := by
  intro b
  induction b with
  | nil => simp [lookupBuf]
  | cons p b ih =>
      rw [List.map_cons]
      by_cases hp : (p.1 == symbol) = true
      · have hkey : p.1 = symbol := eq_of_beq hp
        have hps : (p.1 == s') = false := by
          refine beq_eq_false_iff_ne.mpr ?_
          rw [hkey]
          exact fun hcontra => hne hcontra.symm
        simp only [hp, if_true]
        simpa [lookupBuf, List.find?_cons, hps] using ih
      · have hp' : (p.1 == symbol) = false := by simpa using hp
        simp only [hp', if_false, Bool.false_eq_true]
        by_cases hps : (p.1 == s') = true
        · simp [lookupBuf, List.find?_cons, hps]
        · have hps' : (p.1 == s') = false := by simpa using hps
          simpa [lookupBuf, List.find?_cons, hps'] using ih

/-- Helper: a dict write at one key does not change the value read at another
key (append case). -/
lemma lookup_append_ne (symbol : String) (es : List NewsEntry) (s' : String)
    (hne : s' ≠ symbol) :
    ∀ (b : List (String × List NewsEntry)),
      lookupBuf (b ++ [(symbol, es)]) s' = lookupBuf b s' := by
  intro b
  induction b with
  | nil =>
      have : (symbol == s') = false := beq_eq_false_iff_ne.mpr fun h => hne h.symm
      simp [lookupBuf, List.find?_cons, this]
  | cons p b ih =>
      rw [List.cons_append]
      by_cases hp : (p.1 == s') = true
      · simp [lookupBuf, List.find?_cons, hp]
      · have hp' : (p.1 == s') = false := by simpa using hp
        simpa [lookupBuf, List.find?_cons, hp'] using ih

/-- Helper: a dict write at one key leaves reads of every other key alone. -/
lemma lookupBuf_setBuf_ne (b : List (String × List NewsEntry)) (symbol s' : String)
    (es : List NewsEntry) (hne : s' ≠ symbol) :
    lookupBuf (setBuf b symbol es) s' = lookupBuf b s' := by
  rw [setBuf]
  split
  · exact lookup_map_ne symbol es s' hne b
  · exact lookup_append_ne symbol es s' hne b

/-- Aggregator state after a first report from source A for NVDA at time t0
(threshold 2). -/
def aggAfterA (t0 : ℚ) : NewsAggregator :=
  { threshold := 2,
    buffer := [("NVDA", [{ source := "A", headline := "h1", sentiment := "NEUTRAL",
                           summary := none, time := t0 }])],
    ttl := 30 }

/-- Consensus story emitted when source B corroborates at time t1. -/
def vAB (t1 : ℚ) : VerifiedNews :=
  { symbol := "NVDA", headline := "h2", sources := ["A", "B"], sentiment := "NEUTRAL",
    timestamp := t1, summary := none, all_summaries := [],
    impact := analyze_impact "h2" none }

/-- Aggregator state with the NVDA buffer cleared after consensus. -/
def aggCleared : NewsAggregator := { threshold := 2, buffer := [("NVDA", [])], ttl := 30 }

/-- C2: a repeated report from the same source within the TTL window returns
None and adds no second entry (the buffer is just the purged old buffer), and
with threshold 2 the scenario A then B within TTL emits exactly one
VerifiedNews carrying both sources, an immediately following third report
from A alone emitting nothing. -/
theorem C2_same_source_never_double_counts :
    (∀ (agg : NewsAggregator) (src symbol headline sentiment : String)
        (summary : Option String) (now : ℚ),
      (∃ e ∈ lookupBuf agg.buffer symbol, e.source = src ∧ now - e.time < agg.ttl) →
      (agg.process src symbol headline sentiment summary now).1 = none ∧
      (agg.process src symbol headline sentiment summary now).2.buffer =
        setBuf agg.buffer symbol (purgeEntries agg.ttl now (lookupBuf agg.buffer symbol))) ∧
    (∀ t0 t1 t2 : ℚ, t1 - t0 < 30 →
      ((NewsAggregator.init 2).process "A" "NVDA" "h1" "NEUTRAL" none t0).1 = none ∧
      (∃ v, (((NewsAggregator.init 2).process "A" "NVDA" "h1" "NEUTRAL" none t0).2.process
          "B" "NVDA" "h2" "NEUTRAL" none t1).1 = some v ∧ v.sources = ["A", "B"]) ∧
      ((((NewsAggregator.init 2).process "A" "NVDA" "h1" "NEUTRAL" none t0).2.process
          "B" "NVDA" "h2" "NEUTRAL" none t1).2.process "A" "NVDA" "h3" "NEUTRAL" none t2).1
        = none) := by
  constructor
  · intro agg src symbol headline sentiment summary now h
    obtain ⟨e, he, hsrc, ht⟩ := h
    have hany : (purgeEntries agg.ttl now (lookupBuf agg.buffer symbol)).any
        (fun n => n.source == src) = true := by
      refine List.any_eq_true.mpr ⟨e, ?_, by simp [hsrc]⟩
      simp only [purgeEntries, List.mem_filter]
      exact ⟨he, by simpa using ht⟩
    constructor
    · simp [NewsAggregator.process, hany]
    · simp [NewsAggregator.process, hany]
  · intro t0 t1 t2 h01
    have e1 : ((NewsAggregator.init 2).process "A" "NVDA" "h1" "NEUTRAL" none t0).2 =
        aggAfterA t0 := rfl
    have e2 : (aggAfterA t0).process "B" "NVDA" "h2" "NEUTRAL" none t1 =
        (some (vAB t1), aggCleared) := by
      simp [NewsAggregator.process, aggAfterA, vAB, aggCleared, lookupBuf, List.find?_cons,
        setBuf, purgeEntries, collectSummaries, maxByLen, h01]
    refine ⟨rfl, ⟨vAB t1, ?_, rfl⟩, ?_⟩
    · rw [e1, e2]
    · rw [e1, e2]
      rfl

/-- Witness for C2: the consensus scenario at concrete times 0, 1, 2. -/
theorem C2_same_source_never_double_counts_witness :
    ((1 : ℚ) - 0 < 30) ∧
    ((NewsAggregator.init 2).process "A" "NVDA" "h1" "NEUTRAL" none 0).1 = none ∧
    (∃ v, (((NewsAggregator.init 2).process "A" "NVDA" "h1" "NEUTRAL" none 0).2.process
        "B" "NVDA" "h2" "NEUTRAL" none 1).1 = some v ∧ v.sources = ["A", "B"]) ∧
    ((((NewsAggregator.init 2).process "A" "NVDA" "h1" "NEUTRAL" none 0).2.process
        "B" "NVDA" "h2" "NEUTRAL" none 1).2.process "A" "NVDA" "h3" "NEUTRAL" none 2).1
      = none := by
  have h := C2_same_source_never_double_counts.2 0 1 2 (by norm_num)
  exact ⟨by norm_num, h.1, h.2.1, h.2.2⟩

/-- Helper: after `process`, the processed symbol's buffer is the purged old
buffer (duplicate source), the empty list (consensus emission), or the purged
old buffer plus the new entry, the last case only when the purged buffer held
no entry from the reporting source. -/
lemma process_buffer_spec (agg : NewsAggregator) (src symbol headline sentiment : String)
    (summary : Option String) (now : ℚ) :
    ((agg.process src symbol headline sentiment summary now).2.buffer =
        setBuf agg.buffer symbol (purgeEntries agg.ttl now (lookupBuf agg.buffer symbol))) ∨
    ((agg.process src symbol headline sentiment summary now).2.buffer =
        setBuf agg.buffer symbol []) ∨
    (((agg.process src symbol headline sentiment summary now).2.buffer =
        setBuf agg.buffer symbol (purgeEntries agg.ttl now (lookupBuf agg.buffer symbol) ++
          [{ source := src, headline := headline, sentiment := sentiment,
             summary := summary, time := now }])) ∧
      (purgeEntries agg.ttl now (lookupBuf agg.buffer symbol)).any
        (fun n => n.source == src) = false) := by
  simp only [NewsAggregator.process]
  split
  · exact Or.inl rfl
  · rename_i hdup
    have hdup' : (purgeEntries agg.ttl now (lookupBuf agg.buffer symbol)).any
        (fun n => n.source == src) = false := by
      cases hb : (purgeEntries agg.ttl now (lookupBuf agg.buffer symbol)).any
          (fun n => n.source == src)
      · rfl
      · exact absurd hb hdup
    split
    · exact Or.inr (Or.inl rfl)
    · exact Or.inr (Or.inr ⟨rfl, hdup'⟩)

/-- C7: `process` purges stale entries before inserting (with a positive TTL
every entry surviving a call is younger than the TTL), the per-symbol buffer
never holds two entries from one source, and with threshold 2 a report from B
arriving at least TTL after A's report does not combine with it: nothing is
emitted and B sits in a fresh single-entry buffer. -/
theorem C7_ttl_expiry_no_stale_consensus :
    (∀ (agg : NewsAggregator) (src symbol headline sentiment : String)
        (summary : Option String) (now : ℚ), 0 < agg.ttl →
      ∀ e ∈ lookupBuf (agg.process src symbol headline sentiment summary now).2.buffer symbol,
        now - e.time < agg.ttl) ∧
    (∀ (agg : NewsAggregator) (src symbol headline sentiment : String)
        (summary : Option String) (now : ℚ) (s' : String),
      ((lookupBuf agg.buffer s').map NewsEntry.source).Nodup →
      ((lookupBuf (agg.process src symbol headline sentiment summary now).2.buffer s').map
          NewsEntry.source).Nodup) ∧
    (∀ t0 t1 : ℚ, 30 ≤ t1 - t0 →
      (((NewsAggregator.init 2).process "A" "NVDA" "h1" "NEUTRAL" none t0).2.process
        "B" "NVDA" "h2" "NEUTRAL" none t1).1 = none ∧
      lookupBuf (((NewsAggregator.init 2).process "A" "NVDA" "h1" "NEUTRAL" none t0).2.process
        "B" "NVDA" "h2" "NEUTRAL" none t1).2.buffer "NVDA" =
        [{ source := "B", headline := "h2", sentiment := "NEUTRAL", summary := none,
           time := t1 }]) := by
  refine ⟨?_, ?_, ?_⟩
  · intro agg src symbol headline sentiment summary now httl e he
    rcases process_buffer_spec agg src symbol headline sentiment summary now with
      hb | hb | ⟨hb, hdup⟩ <;> rw [hb, lookupBuf_setBuf_self] at he
    · simp only [purgeEntries, List.mem_filter] at he
      exact of_decide_eq_true he.2
    · simp at he
    · rw [List.mem_append] at he
      rcases he with he | he
      · simp only [purgeEntries, List.mem_filter] at he
        exact of_decide_eq_true he.2
      · simp only [List.mem_singleton] at he
        subst he
        simpa using httl
  · intro agg src symbol headline sentiment summary now s' hnodup
    by_cases hs : s' = symbol
    · subst hs
      rcases process_buffer_spec agg src s' headline sentiment summary now with
        hb | hb | ⟨hb, hdup⟩ <;> rw [hb, lookupBuf_setBuf_self]
      · refine List.Nodup.sublist ?_ hnodup
        exact List.Sublist.map _ (List.filter_sublist _)
      · simp
      · rw [List.map_append, List.nodup_append]
        refine ⟨?_, by simp, ?_⟩
        · refine List.Nodup.sublist ?_ hnodup
          exact List.Sublist.map _ (List.filter_sublist _)
        · intro a ha
          simp only [List.mem_map] at ha
          obtain ⟨e, he, rfl⟩ := ha
          simp only [List.map_cons, List.map_nil, List.mem_singleton]
          intro hsrc
          have : (purgeEntries agg.ttl now (lookupBuf agg.buffer s')).any
              (fun n => n.source == src) = true :=
            List.any_eq_true.mpr ⟨e, he, by simp [hsrc]⟩
          rw [this] at hdup
          exact Bool.noConfusion hdup
    · rcases process_buffer_spec agg src symbol headline sentiment summary now with
        hb | hb | ⟨hb, hdup⟩ <;> rw [hb, lookupBuf_setBuf_ne _ _ _ _ hs] <;> exact hnodup
  · intro t0 t1 h
    have e1 : ((NewsAggregator.init 2).process "A" "NVDA" "h1" "NEUTRAL" none t0).2 =
        aggAfterA t0 := rfl
    have hdrop : ¬ (t1 - t0 < (30 : ℚ)) := not_lt.mpr h
    have e2 : (aggAfterA t0).process "B" "NVDA" "h2" "NEUTRAL" none t1 =
        (none, { threshold := 2,
                 buffer := [("NVDA", [{ source := "B", headline := "h2",
                                        sentiment := "NEUTRAL", summary := none,
                                        time := t1 }])],
                 ttl := 30 }) := by
      simp [NewsAggregator.process, aggAfterA, lookupBuf, List.find?_cons, setBuf,
        purgeEntries, hdrop]
    constructor
    · rw [e1, e2]
    · rw [e1, e2]
      rfl

/-- Witness for C7: the TTL-expiry scenario at concrete times 0 and 40, and
the freshness bound on a concrete call. -/
theorem C7_ttl_expiry_no_stale_consensus_witness :
    ((30 : ℚ) ≤ 40 - 0) ∧
    (((NewsAggregator.init 2).process "A" "NVDA" "h1" "NEUTRAL" none 0).2.process
        "B" "NVDA" "h2" "NEUTRAL" none 40).1 = none ∧
    lookupBuf (((NewsAggregator.init 2).process "A" "NVDA" "h1" "NEUTRAL" none 0).2.process
        "B" "NVDA" "h2" "NEUTRAL" none 40).2.buffer "NVDA" =
      [{ source := "B", headline := "h2", sentiment := "NEUTRAL", summary := none,
         time := 40 }] := by
  have h := C7_ttl_expiry_no_stale_consensus.2.2 0 40 (by norm_num)
  exact ⟨by norm_num, h.1, h.2⟩

/-- Helper: a persisted row younger than the 24h horizon survives
`mark_news_seen`, whatever key is being marked and whether the probabilistic
prune fires. -/
lemma mem_store_markNewsSeen (store : List (String × ℚ)) (k' : String) (now : ℚ)
    (p : Bool) (k : String) (t : ℚ) (hmem : (k, t) ∈ store) (hle : now ≤ t + 86400) :
    (k, t) ∈ markNewsSeen store k' now p := by
  simp only [markNewsSeen]
  have h1 : (k, t) ∈ (if isNewsSeen store k' = true then store else store ++ [(k', now)]) := by
    split
    · exact hmem
    · exact List.mem_append_left _ hmem
  by_cases hp : p = true
  · rw [if_pos hp]
    refine List.mem_filter.mpr ⟨h1, ?_⟩
    simp only [decide_eq_true_eq]
    linarith
  · rw [if_neg hp]
    exact h1

/-- Helper: a persisted row younger than the 24h horizon survives any sequence
of dedup operations whose clock readings stay within that horizon, process
restarts included. -/
lemma store_retained (k : String) (t : ℚ) :
    ∀ (ops : List DedupOp) (s : DedupState), (k, t) ∈ s.store →
      (∀ op ∈ ops, DedupOp.timeLE (t + 86400) op) →
      (k, t) ∈ (runDedup s ops).store := by
  intro ops
  induction ops with
  | nil => intro s h _; exact h
  | cons op ops ih =>
      intro s h hops
      have hle : DedupOp.timeLE (t + 86400) op := hops op (List.mem_cons_self op ops)
      have hstep : (k, t) ∈ (dedupStep s op).store := by
        cases op with
        | yahoo k' now p =>
            simp only [dedupStep, yahooStep]
            split
            · exact h
            split
            · exact h
            · exact mem_store_markNewsSeen s.store k' now p k t h hle
        | av k' now p i =>
            simp only [dedupStep, avStep]
            split
            · exact h
            split
            · exact h
            · exact mem_store_markNewsSeen s.store k' now p k t h hle
        | restart => exact h
      exact ih (dedupStep s op) hstep fun op' hop' => hops op' (List.mem_cons_of_mem op hop')

/-- Helper: a key present in the persisted store is admitted by neither dedup
path, whatever the session set holds. -/
lemma seen_key_not_admitted (s : DedupState) (k : String)
    (hk : isNewsSeen s.store k = true) (now : ℚ) (p : Bool) (i : ℕ) :
    (yahooStep s k now p).1 = false ∧ (avStep s k now p i).1 = false := by
  constructor
  · simp [yahooStep, hk]
  · simp only [avStep]
    split
    · rfl
    · simp [hk]

/-- Counterexample to C3 as stated: in the per-symbol Yahoo path
(`_poll_symbol`), a persistent-store hit is NOT back-filled into the
in-memory set — the item is skipped and the session set stays empty. -/
theorem C3_counterexample_yahoo_no_backfill :
    isNewsSeen [("u", (0 : ℚ))] "u" = true ∧
    (yahooStep { mem := [], store := [("u", (0 : ℚ))] } "u" 1 false).1 = false ∧
    (yahooStep { mem := [], store := [("u", (0 : ℚ))] } "u" 1 false).2.mem = [] := by
  decide

/-- C3 (amended): an admitted key is recorded in both tiers and is never
admitted again by either path within the 24h retention horizon, across any
interleaving of dedup operations and process restarts; the in-memory set is
checked first (a memory hit returns without touching anything) and the
persistent store is checked before admitting; but only the global
Alpha Vantage path back-fills a persistent-store hit into the in-memory set —
the per-symbol Yahoo path leaves the session set unchanged on a store hit. -/
theorem C3_dedup_no_readmission :
    (∀ (s : DedupState) (k : String) (t : ℚ) (ops : List DedupOp),
      (k, t) ∈ s.store →
      (∀ op ∈ ops, DedupOp.timeLE (t + 86400) op) →
      ∀ (now' : ℚ) (p : Bool) (i : ℕ),
        (yahooStep (runDedup s ops) k now' p).1 = false ∧
        (avStep (runDedup s ops) k now' p i).1 = false) ∧
    (∀ (s : DedupState) (k : String) (now : ℚ) (p : Bool),
      (yahooStep s k now p).1 = true →
      (k, now) ∈ (yahooStep s k now p).2.store ∧ k ∈ (yahooStep s k now p).2.mem ∧
      isNewsSeen s.store k = false ∧ s.mem.contains k = false) ∧
    (∀ (s : DedupState) (k : String) (now : ℚ) (p : Bool) (i : ℕ),
      s.mem.contains k = false → isNewsSeen s.store k = true →
      avStep s k now p i = (false, { s with mem := k :: s.mem })) ∧
    (∀ (s : DedupState) (k : String) (now : ℚ) (p : Bool),
      s.mem.contains k = true → yahooStep s k now p = (false, s)) ∧
    (∀ (s : DedupState) (k : String) (now : ℚ) (p : Bool) (i : ℕ),
      s.mem.contains k = true → avStep s k now p i = (false, s)) := by
  refine ⟨?_, ?_, ?_, ?_, ?_⟩
  · intro s k t ops hmem hops now' p i
    have hstore : (k, t) ∈ (runDedup s ops).store := store_retained k t ops s hmem hops
    have hseen : isNewsSeen (runDedup s ops).store k = true :=
      List.any_eq_true.mpr ⟨(k, t), hstore, by simp⟩
    exact seen_key_not_admitted (runDedup s ops) k hseen now' p i
  · intro s k now p hadm
    have hm' : s.mem.contains k = false := by
      cases hc : s.mem.contains k
      · rfl
      · have hcm : k ∈ s.mem := by simpa using hc
        simp [yahooStep, hcm] at hadm
    have hnm : k ∉ s.mem := by simpa using hm'
    have hseen' : isNewsSeen s.store k = false := by
      cases hc : isNewsSeen s.store k
      · rfl
      · simp [yahooStep, hnm, hc] at hadm
    refine ⟨?_, ?_, hseen', hm'⟩
    · have hgoal : (yahooStep s k now p).2.store = markNewsSeen s.store k now p := by
        simp [yahooStep, hnm, hseen']
      rw [hgoal]
      have hmark : (k, now) ∈
          (if p = true then
            List.filter (fun e => decide (now - 86400 ≤ e.2)) (s.store ++ [(k, now)])
          else s.store ++ [(k, now)]) := by
        by_cases hp : p = true
        · rw [if_pos hp]
          refine List.mem_filter.mpr ⟨List.mem_append_right _ (by simp), ?_⟩
          simp only [decide_eq_true_eq]
          linarith
        · rw [if_neg hp]
          exact List.mem_append_right _ (by simp)
      simpa [markNewsSeen, hseen'] using hmark
    · simp [yahooStep, hnm, hseen']
  · intro s k now p i hm hseen
    have hnm : k ∉ s.mem := by simpa using hm
    simp [avStep, hnm, hseen]
  · intro s k now p hm
    have hmem : k ∈ s.mem := by simpa using hm
    simp [yahooStep, hmem]
  · intro s k now p i hm
    have hmem : k ∈ s.mem := by simpa using hm
    simp [avStep, hmem]

/-- Witness for C3: key k admitted at time 0 survives a restart and is
rejected by both paths at time 10. -/
theorem C3_dedup_no_readmission_witness :
    (("k", (0 : ℚ)) ∈ ([("k", (0 : ℚ))] : List (String × ℚ))) ∧
    (yahooStep (runDedup { mem := [], store := [("k", (0 : ℚ))] }
      [DedupOp.restart, DedupOp.yahoo "other" 5 true]) "k" 10 false).1 = false ∧
    (avStep (runDedup { mem := [], store := [("k", (0 : ℚ))] }
      [DedupOp.restart, DedupOp.yahoo "other" 5 true]) "k" 10 false 0).1 = false := by
  have h := C3_dedup_no_readmission.1 { mem := [], store := [("k", (0 : ℚ))] } "k" 0
    [DedupOp.restart, DedupOp.yahoo "other" 5 true] (by decide)
    (by
      intro op hop
      simp only [List.mem_cons, List.mem_singleton] at hop
      rcases hop with rfl | rfl | h
      · exact True.intro
      · show (5 : ℚ) ≤ 0 + 86400
        norm_num
      · exact absurd h (List.not_mem_nil _))
    10 false 0
  exact ⟨by decide, h.1, h.2⟩

end MarketPulse
